import Mathlib

/-!
# Verification of the trusted-signing-cli orchestrator

A shallow embedding of `src/main.rs` of the `trusted-signing-cli`
repository.  Pure code (the extension classifier, the JSON
serialization of the metadata record, the signtool argument template)
is translated to Lean functions; the effectful `run` orchestrator is
translated to explicit state passing over a filesystem model `FS` and an
environment `Env` describing the outcome of every external collaborator
(azure CLI presence, signtool presence, home-directory resolution,
directory creation, package download, archive extraction, metadata
write, login, per-file signing).  Side effects are recorded in an
ordered event trace so that frame and ordering properties can be stated.
-/

namespace TrustedSigningCli

/-! ## Extension classifier (`is_supported` in main.rs)

`Path::new(file).extension()` is modelled by `extension`: the file name
is the last non-empty, non-`.` component of the path (components split
on `/` or `\`, `..` has no file name), and the extension is the part of
the file name after its last dot, provided the part before that dot is
non-empty (so `.gitignore` has no extension, matching Rust). -/

def isSep (c : Char) : Bool := c == '/' || c == '\\'

/-- Split a character list at every path separator (keeping empty
pieces, like `String.split`). -/
def splitSep : List Char → List (List Char)
  | [] => [[]]
  | c :: rest =>
    match splitSep rest with
    | [] => [[]]
    | g :: gs => if isSep c then [] :: g :: gs else (c :: g) :: gs

def pathComponents (file : String) : List String :=
  ((splitSep file.data).map String.mk).filter
    (fun s => !(s == "") && !(s == "."))

def fileName (file : String) : Option String :=
  match (pathComponents file).getLast? with
  | none => none
  | some name => if name == ".." then none else some name

/-- Split a character list at its last dot: returns the parts before and
after the last `.`, or `none` when there is no dot. -/
def lastDotSplit : List Char → Option (List Char × List Char)
  | [] => none
  | c :: rest =>
    match lastDotSplit rest with
    | some (b, a) => some (c :: b, a)
    | none => if c == '.' then some ([], rest) else none

def extension (file : String) : Option String :=
  match fileName file with
  | none => none
  | some name =>
    match lastDotSplit name.data with
    | none => none
    | some (b, a) => if b.isEmpty then none else some (String.mk a)

/-- The fixed list of supported extensions from `is_supported`. -/
def supported_extensions : List String :=
  ["appx", "msix", "appxbundle", "msixbundle",
   "cab", "cat", "dll", "exe", "js", "vbs", "wsf",
   "msi", "msp", "mst", "ocx", "ps1", "stl", "sys"]

/-- `is_supported` from main.rs: a missing extension becomes `""` (the
`unwrap_or_default`), which is not in the list. -/
def is_supported (file : String) : Bool :=
  supported_extensions.contains ((extension file).getD "")

/-! ## The metadata record and its serde_json serialization

`Metadata` keeps the Rust field names; serde renames them to
`Endpoint`, `CodeSigningAccountName`, `CertificateProfileName` and
serializes the fields in declaration order with serde_json's string
escaping (quote, backslash, and control characters). -/

structure Metadata where
  endpoint : String
  code_signing_account_name : String
  certificate_profile : String
deriving DecidableEq, Repr

def hexDigitChar (n : Nat) : Char :=
  if n < 10 then Char.ofNat (48 + n) else Char.ofNat (87 + n)

/-- serde_json's escaping of a single character: `"` and `\` get a
backslash, the control characters BS/TAB/LF/FF/CR get their short
escapes, other control characters become `\u00XX` (lowercase hex), and
everything else is emitted as-is. -/
def jsonEscapeChar (c : Char) : List Char :=
  if c = '"' then ['\\', '"']
  else if c = '\\' then ['\\', '\\']
  else if c = Char.ofNat 8 then ['\\', 'b']
  else if c = Char.ofNat 9 then ['\\', 't']
  else if c = Char.ofNat 10 then ['\\', 'n']
  else if c = Char.ofNat 12 then ['\\', 'f']
  else if c = Char.ofNat 13 then ['\\', 'r']
  else if c.toNat < 32 then
    ['\\', 'u', '0', '0', hexDigitChar (c.toNat / 16), hexDigitChar (c.toNat % 16)]
  else [c]

def jsonEscapeList (cs : List Char) : List Char :=
  (cs.map jsonEscapeChar).flatten

/-- A JSON string literal, as a character list: quote, escaped body, quote. -/
def jsonStringChars (s : String) : List Char :=
  '"' :: (jsonEscapeList s.data ++ ['"'])

/-- The external (serde-renamed) field names paired with the values,
in serde_json's serialization order. -/
def Metadata.fields (m : Metadata) : List (String × String) :=
  [("Endpoint", m.endpoint),
   ("CodeSigningAccountName", m.code_signing_account_name),
   ("CertificateProfileName", m.certificate_profile)]

def jsonKV (kv : String × String) : List Char :=
  jsonStringChars kv.1 ++ ':' :: jsonStringChars kv.2

/-- `serde_json::to_string(&data)`: a single JSON object with the three
renamed fields in declaration order, no whitespace. -/
def Metadata.toJson (m : Metadata) : String :=
  String.mk ('\x7b' ::
    (jsonKV ("Endpoint", m.endpoint) ++
     ',' :: jsonKV ("CodeSigningAccountName", m.code_signing_account_name) ++
     ',' :: jsonKV ("CertificateProfileName", m.certificate_profile) ++
     ['\x7d']))

/-! ## A decoder witnessing that the three fields are recoverable -/

def hexVal? (c : Char) : Option Nat :=
  if '0' ≤ c ∧ c ≤ '9' then some (c.toNat - 48)
  else if 'a' ≤ c ∧ c ≤ 'f' then some (c.toNat - 87)
  else none

def unescapeShort? (c : Char) : Option Char :=
  if c = '"' then some '"'
  else if c = '\\' then some '\\'
  else if c = '/' then some '/'
  else if c = 'b' then some (Char.ofNat 8)
  else if c = 'f' then some (Char.ofNat 12)
  else if c = 'n' then some (Char.ofNat 10)
  else if c = 'r' then some (Char.ofNat 13)
  else if c = 't' then some (Char.ofNat 9)
  else none

/-- Parse the body of a JSON string literal (after the opening quote),
returning the unescaped content and the input after the closing quote. -/
def parseStringBody : List Char → Option (List Char × List Char)
  | [] => none
  | c :: rest =>
    if c = '"' then some ([], rest)
    else if c = '\\' then
      match rest with
      | [] => none
      | e :: rest2 =>
        if e = 'u' then
          match rest2 with
          | h1 :: h2 :: h3 :: h4 :: rest3 =>
            match hexVal? h1, hexVal? h2, hexVal? h3, hexVal? h4 with
            | some a, some b, some cc, some d =>
              match parseStringBody rest3 with
              | some (cs, r) =>
                some (Char.ofNat (((a * 16 + b) * 16 + cc) * 16 + d) :: cs, r)
              | none => none
            | _, _, _, _ => none
          | _ => none
        else
          match unescapeShort? e with
          | some d =>
            match parseStringBody rest2 with
            | some (cs, r) => some (d :: cs, r)
            | none => none
          | none => none
    else
      match parseStringBody rest with
      | some (cs, r) => some (c :: cs, r)
      | none => none

/-- Strip an expected literal character sequence from the front. -/
def stripPre : List Char → List Char → Option (List Char)
  | [], cs => some cs
  | p :: ps, c :: cs => if c = p then stripPre ps cs else none
  | _ :: _, [] => none

/-- Parse one JSON object member with the given literal key: the quoted
key, a colon, and a quoted string value. -/
def parseField (key : String) (cs : List Char) : Option (String × List Char) :=
  match stripPre (jsonStringChars key ++ [':', '"']) cs with
  | none => none
  | some cs1 =>
    match parseStringBody cs1 with
    | none => none
    | some (v, cs2) => some (String.mk v, cs2)

/-- Decode the exact shape `Metadata.toJson` produces: an object with
exactly the three external field names, in order. -/
def decodeMetadata (s : String) : Option Metadata :=
  match s.data with
  | [] => none
  | c0 :: cs0 =>
    if c0 = '\x7b' then
      match parseField "Endpoint" cs0 with
      | none => none
      | some (v1, cs1) =>
        match cs1 with
        | [] => none
        | c1 :: cs2 =>
          if c1 = ',' then
            match parseField "CodeSigningAccountName" cs2 with
            | none => none
            | some (v2, cs3) =>
              match cs3 with
              | [] => none
              | c2 :: cs4 =>
                if c2 = ',' then
                  match parseField "CertificateProfileName" cs4 with
                  | none => none
                  | some (v3, cs5) =>
                    if cs5 = ['\x7d'] then some ⟨v1, v2, v3⟩ else none
                else none
          else none
    else none

/-! ## Run configuration, environment and filesystem model -/

/-- The parsed CLI arguments (`Args` in main.rs), read-only. -/
structure Args where
  file : List String
  azure_client_secret : String
  azure_client_id : String
  azure_tenant_id : String
  azure_cli_path : String
  sign_tool_path : String
  endpoint : String
  account : String
  certificate : String
  fd : String
  tr : String
  td : String
  description : Option String
  ignore_unsupported : Bool

/-- Outcomes of every external collaborator touched by `run`.

`homeDir` is what `BaseDirs::new()` resolves (`none` when no home
directory can be found); the `Ok` booleans say whether the respective
external operation succeeds, and the `Err` strings are the opaque
underlying causes inserted into the formatted error messages.
`downloadOk` describes the network download performed by
`downloader.download(..)` (whose result the source discards);
`urlParseOk` describes `Download::try_from(link)`. -/
structure Env where
  azureCliExists : Bool
  signToolExists : Bool
  homeDir : Option String
  createDirOk : Bool
  urlParseOk : Bool
  downloadOk : Bool
  extractOk : Bool
  writeOk : Bool
  loginOk : Bool
  signOk : String → Bool
  createDirErr : String
  urlErr : String
  extractErr : String
  writeErr : String
  loginErr : String
  signErr : String → String

/-- The on-disk workspace state the orchestrator reads and mutates:
existence of the config directory, of the library marker file
`lib/bin/x64/Azure.CodeSigning.Dlib.dll`, of the downloaded archive,
and the content of `metadata.json` (if present). -/
structure FS where
  configDirExists : Bool
  libMarkerPresent : Bool
  archivePresent : Bool
  metadataFile : Option String
deriving DecidableEq, Repr

/-- The observable side effects of a run, in order. -/
inductive Event where
  | createConfigDir
  | downloadCall
  | extractCall
  | metadataWrite (content : String)
  | loginCall
  | signCall (argv : List String)
deriving DecidableEq, Repr

inductive RunResult where
  | ok
  | err (msg : String)
  | panicked (msg : String)
deriving DecidableEq, Repr

structure RunOut where
  result : RunResult
  fs : FS
  events : List Event
deriving DecidableEq, Repr

/-! ## Fixed strings and paths -/

def link : String :=
  "https://www.nuget.org/api/v2/package/Microsoft.Trusted.Signing.Client/1.0.95"

def configDirOf (home : String) : String := home ++ "/.trusted-signing-cli"

def libPathOf (configDir : String) : String :=
  configDir ++ "/lib/bin/x64/Azure.CodeSigning.Dlib.dll"

def metadataPathOf (configDir : String) : String := configDir ++ "/metadata.json"

/-- `{:?}` rendering of a path/string in the format strings. -/
def quoteDbg (s : String) : String := "\"" ++ s ++ "\""

def azureCliMissingMsg (p : String) : String :=
  "azure cli " ++ p ++ " does not exists, please specify PATH with env AZURE_CLI_PATH"

def signToolMissingMsg (p : String) : String :=
  "signtool " ++ p ++ " does not exists, please specify PATH with env SIGNTOOL_PATH"

def configDirErrMsg (dir cause : String) : String :=
  "config dir '" ++ quoteDbg dir ++ "' could not be created: " ++ cause

def downloadErrMsg (cause : String) : String :=
  "could not download signing client from " ++ link ++ ": " ++ cause

def extractErrMsg (cause : String) : String :=
  "signing client can't be unzipped: " ++ cause

def writeErrMsg (cause : String) : String :=
  "metadata.json could not be written: " ++ cause

def loginErrMsg (p cause : String) : String :=
  "login via azure cli '" ++ p ++ "' failed: " ++ cause

def signErrMsg (p f cause : String) : String :=
  "signtool '" ++ p ++ "' could not sign the file '" ++ quoteDbg f ++ "', error: " ++ cause

/-! ## The sign-invocation template and the per-file loop -/

/-- The `cmd_args` vector built once before the file loop: the fixed
flags in source order, then the optional description pair. -/
def buildCmdArgs (fd tr td libPath metadataPath : String)
    (description : Option String) : List String :=
  ["sign", "/v", "/fd", fd, "/tr", tr, "/td", td,
   "/dlib", libPath, "/dmdf", metadataPath] ++
  (match description with
   | none => []
   | some d => ["/d", d])

/-- The `for file in args.file` loop: skip unsupported files when the
flag is set, otherwise invoke signtool with `cmd_args` plus the one
file; a failed invocation aborts the loop with the formatted error. -/
def signLoop (signToolPath : String) (ignoreUnsupported : Bool)
    (signOk : String → Bool) (signErr : String → String)
    (cmdArgs : List String) : List String → RunResult × List Event
  | [] => (.ok, [])
  | f :: rest =>
    if ignoreUnsupported && !is_supported f then
      signLoop signToolPath ignoreUnsupported signOk signErr cmdArgs rest
    else if signOk f then
      let r := signLoop signToolPath ignoreUnsupported signOk signErr cmdArgs rest
      (r.1, .signCall (cmdArgs ++ [f]) :: r.2)
    else
      (.err (signErrMsg signToolPath f (signErr f)), [.signCall (cmdArgs ++ [f])])

def metadataOf (args : Args) : Metadata :=
  { endpoint := args.endpoint,
    code_signing_account_name := args.account,
    certificate_profile := args.certificate }

/-! ## The run orchestrator, stage by stage

Each stage function returns the result, the final filesystem state, and
the events of itself plus all later stages; `run` mirrors the statement
order of `run` in main.rs. -/

def signStage (args : Args) (env : Env) (libPath metadataPath : String)
    (fs : FS) : RunOut :=
  let cmdArgs := buildCmdArgs args.fd args.tr args.td libPath metadataPath args.description
  let r := signLoop args.sign_tool_path args.ignore_unsupported env.signOk env.signErr
    cmdArgs args.file
  ⟨r.1, fs, r.2⟩

def loginStage (args : Args) (env : Env) (libPath metadataPath : String)
    (fs : FS) : RunOut :=
  if env.loginOk then
    let o := signStage args env libPath metadataPath fs
    ⟨o.result, o.fs, .loginCall :: o.events⟩
  else
    ⟨.err (loginErrMsg args.azure_cli_path env.loginErr), fs, [.loginCall]⟩

def metadataStage (args : Args) (env : Env) (libPath metadataPath : String)
    (fs : FS) : RunOut :=
  let j := (metadataOf args).toJson
  if env.writeOk then
    let o := loginStage args env libPath metadataPath { fs with metadataFile := some j }
    ⟨o.result, o.fs, .metadataWrite j :: o.events⟩
  else
    ⟨.err (writeErrMsg env.writeErr), fs, []⟩

def libStage (args : Args) (env : Env) (configDir : String) (fs : FS) : RunOut :=
  let lp := libPathOf configDir
  let mp := metadataPathOf configDir
  if fs.libMarkerPresent then
    metadataStage args env lp mp fs
  else if !env.urlParseOk then
    ⟨.err (downloadErrMsg env.urlErr), fs, []⟩
  else
    -- the download result is discarded by the source; the archive is
    -- present afterwards exactly when the network download succeeded
    let fs2 := { fs with archivePresent := env.downloadOk }
    if fs2.archivePresent && env.extractOk then
      let o := metadataStage args env lp mp { fs2 with libMarkerPresent := true }
      ⟨o.result, o.fs, .downloadCall :: .extractCall :: o.events⟩
    else
      ⟨.err (extractErrMsg env.extractErr), fs2, [.downloadCall, .extractCall]⟩

def dirStage (args : Args) (env : Env) (home : String) (fs : FS) : RunOut :=
  let configDir := configDirOf home
  if fs.configDirExists then
    libStage args env configDir fs
  else if env.createDirOk then
    let o := libStage args env configDir { fs with configDirExists := true }
    ⟨o.result, o.fs, .createConfigDir :: o.events⟩
  else
    ⟨.err (configDirErrMsg configDir env.createDirErr), fs, []⟩

/-- `run` from main.rs: validate the two tool paths, resolve home
(`.expect` panics when it cannot be resolved), ensure the config
directory, provision the library, write the metadata, log in, then sign
each file. -/
def run (args : Args) (env : Env) (fs : FS) : RunOut :=
  if !env.azureCliExists then
    ⟨.err (azureCliMissingMsg args.azure_cli_path), fs, []⟩
  else if !env.signToolExists then
    ⟨.err (signToolMissingMsg args.sign_tool_path), fs, []⟩
  else
    match env.homeDir with
    | none => ⟨.panicked "could not find home directory", fs, []⟩
    | some home => dirStage args env home fs

/-- `main` from main.rs: exit 0 when `run` returns `Ok`, print the error
and exit 1 when it returns `Err`; a panic (the `.expect` on the home
directory) aborts the process with Rust's panic exit status 101. -/
def mainExitCode (args : Args) (env : Env) (fs : FS) : Nat :=
  match (run args env fs).result with
  | .ok => 0
  | .err _ => 1
  | .panicked _ => 101

/-! ## Trace observations -/

def isDownloadCall : Event → Bool
  | .downloadCall => true
  | _ => false

def isExtractCall : Event → Bool
  | .extractCall => true
  | _ => false

def isMetadataWrite : Event → Bool
  | .metadataWrite _ => true
  | _ => false

def isSignCall : Event → Bool
  | .signCall _ => true
  | _ => false

def downloadCount (evs : List Event) : Nat := (evs.filter isDownloadCall).length

def extractCount (evs : List Event) : Nat := (evs.filter isExtractCall).length

def metadataWriteCount (evs : List Event) : Nat := (evs.filter isMetadataWrite).length

/-- The argument vectors of the sign invocations in a trace, in order. -/
def signArgvs (evs : List Event) : List (List String) :=
  evs.filterMap (fun e =>
    match e with
    | .signCall argv => some argv
    | _ => none)

/-- A file is passed to signtool unless the skip policy is on and the
classifier rejects it. -/
def shouldSign (ignoreUnsupported : Bool) (f : String) : Bool :=
  !(ignoreUnsupported && !is_supported f)

/-- All external stages before the file loop succeed (the azure CLI and
signtool exist, home resolves, the config dir exists or can be created,
the library is present or can be downloaded and extracted, the metadata
write and the login succeed). -/
def setupOk (env : Env) (fs : FS) : Prop :=
  env.azureCliExists = true ∧ env.signToolExists = true ∧ env.homeDir.isSome ∧
  (fs.configDirExists = true ∨ env.createDirOk = true) ∧
  (fs.libMarkerPresent = true ∨
    (env.urlParseOk = true ∧ env.downloadOk = true ∧ env.extractOk = true)) ∧
  env.writeOk = true ∧ env.loginOk = true

/-- Decidable success predicate for the whole run. -/
def runSucceeds (args : Args) (env : Env) (fs : FS) : Bool :=
  env.azureCliExists && env.signToolExists && env.homeDir.isSome &&
  (fs.configDirExists || env.createDirOk) &&
  (fs.libMarkerPresent || (env.urlParseOk && env.downloadOk && env.extractOk)) &&
  env.writeOk && env.loginOk &&
  (args.file.filter (shouldSign args.ignore_unsupported)).all env.signOk

/-! ## Concrete fixtures used by witnesses and counterexamples -/

/-- A sample parsed configuration: two target files, skip-unsupported on. -/
def sampleArgs : Args :=
  ⟨["a.exe", "b.unknownext"], "sec", "cid", "tid", "az", "st",
   "ep", "acct", "prof", "SHA256", "http://ts", "SHA256", none, true⟩

/-- Same files, but different endpoint/account/certificate metadata. -/
def argsB : Args :=
  ⟨["a.exe", "b.unknownext"], "sec", "cid", "tid", "az", "st",
   "ep2", "acct2", "prof2", "SHA256", "http://ts", "SHA256", none, true⟩

/-- Three files, no skip policy. -/
def argsThree : Args :=
  ⟨["a.exe", "b.exe", "c.exe"], "sec", "cid", "tid", "az", "st",
   "ep", "acct", "prof", "SHA256", "http://ts", "SHA256", none, false⟩

/-- Two unsupported files, skip-unsupported on. -/
def argsAllSkipped : Args :=
  ⟨["notes.txt", "README"], "sec", "cid", "tid", "az", "st",
   "ep", "acct", "prof", "SHA256", "http://ts", "SHA256", none, true⟩

/-- An environment in which every external collaborator succeeds. -/
def sampleEnv : Env :=
  ⟨true, true, some "/home/u", true, true, true, true, true, true,
   fun _ => true, "c", "u", "x", "w", "l", fun _ => "s"⟩

/-- Same, but the network download fails. -/
def envDownloadFail : Env := { sampleEnv with downloadOk := false }

/-- Same, but the home directory cannot be resolved. -/
def envNoHome : Env := { sampleEnv with homeDir := none }

/-- Same, but signtool fails on the file b.exe. -/
def envFailB : Env := { sampleEnv with signOk := fun f => !(f == "b.exe") }

/-- Same, but the azure CLI executable is missing. -/
def envNoCli : Env := { sampleEnv with azureCliExists := false }

/-- A pristine workspace: nothing provisioned. -/
def emptyFS : FS := ⟨false, false, false, none⟩

/-- A fully provisioned workspace with a stale metadata file. -/
def provisionedFS : FS := ⟨true, true, false, some "old"⟩

/-- Proof-side companion of `signLoop` with the skip test already
applied: the loop over exactly the files that are passed to signtool. -/
def signPlain (p : String) (so : String → Bool) (se : String → String)
    (ca : List String) : List String → RunResult × List Event
  | [] => (.ok, [])
  | f :: rest =>
    if so f then
      let r := signPlain p so se ca rest
      (r.1, .signCall (ca ++ [f]) :: r.2)
    else
      (.err (signErrMsg p f (se f)), [.signCall (ca ++ [f])])

/-- The sign-invocation template a run with home directory `home` hands
to every signtool invocation. -/
def templateOf (args : Args) (home : String) : List String :=
  buildCmdArgs args.fd args.tr args.td (libPathOf (configDirOf home))
    (metadataPathOf (configDirOf home)) args.description

/-! ## Lemmas about the sign loop -/

theorem signLoop_eq_signPlain (p : String) (ig : Bool) (so : String → Bool)
    (se : String → String) (ca : List String) (files : List String) :
    signLoop p ig so se ca files = signPlain p so se ca (files.filter (shouldSign ig)) := by
  induction files with
  | nil => rfl
  | cons f rest ih =>
    cases h : (ig && !is_supported f) with
    | true =>
      have hss : shouldSign ig f = false := by simp [shouldSign, h]
      simp [signLoop, List.filter_cons, h, hss, ih]
    | false =>
      have hss : shouldSign ig f = true := by simp [shouldSign, h]
      simp [signLoop, signPlain, List.filter_cons, h, hss, ih]

theorem signPlain_all_ok (p : String) (so : String → Bool) (se : String → String)
    (ca : List String) (l : List String) (h : ∀ f ∈ l, so f = true) :
    signPlain p so se ca l = (.ok, l.map fun f => .signCall (ca ++ [f])) := by
  induction l with
  | nil => rfl
  | cons f rest ih =>
    have hf : so f = true := h f (by simp)
    simp [signPlain, hf, ih fun g hg => h g (by simp [hg])]

theorem signPlain_fail (p : String) (so : String → Bool) (se : String → String)
    (ca : List String) (pre post : List String) (bad : String)
    (hpre : ∀ f ∈ pre, so f = true) (hbad : so bad = false) :
    signPlain p so se ca (pre ++ bad :: post) =
      (.err (signErrMsg p bad (se bad)),
       (pre.map fun f => Event.signCall (ca ++ [f])) ++ [.signCall (ca ++ [bad])]) := by
  induction pre with
  | nil => simp [signPlain, hbad]
  | cons f rest ih =>
    have hf : so f = true := hpre f (by simp)
    simp [signPlain, hf, ih fun g hg => hpre g (by simp [hg])]

theorem signPlain_ok_iff (p : String) (so : String → Bool) (se : String → String)
    (ca : List String) (l : List String) :
    (signPlain p so se ca l).1 = .ok ↔ l.all so = true := by
  induction l with
  | nil => simp [signPlain]
  | cons f rest ih =>
    by_cases hf : so f
    · simp [signPlain, hf, ih]
    · simp [signPlain, hf, Bool.of_not_eq_true hf]

theorem signPlain_events_mem (p : String) (so : String → Bool) (se : String → String)
    (ca : List String) (l : List String) (e : Event)
    (he : e ∈ (signPlain p so se ca l).2) : ∃ f ∈ l, e = .signCall (ca ++ [f]) := by
  induction l with
  | nil => simp [signPlain] at he
  | cons f rest ih =>
    cases hf : so f with
    | true =>
      simp only [signPlain, hf, if_true, List.mem_cons] at he
      rcases he with he | he
      · exact ⟨f, by simp, he⟩
      · obtain ⟨g, hg, hge⟩ := ih he
        exact ⟨g, by simp [hg], hge⟩
    | false =>
      simp [signPlain, hf] at he
      exact ⟨f, by simp, he⟩

theorem signLoop_events_mem (p : String) (ig : Bool) (so : String → Bool)
    (se : String → String) (ca : List String) (files : List String) (e : Event)
    (he : e ∈ (signLoop p ig so se ca files).2) :
    ∃ f ∈ files, e = .signCall (ca ++ [f]) := by
  rw [signLoop_eq_signPlain] at he
  obtain ⟨f, hf, hfe⟩ := signPlain_events_mem p so se ca _ e he
  exact ⟨f, List.mem_of_mem_filter hf, hfe⟩

theorem signLoop_downloadCount (p : String) (ig : Bool) (so : String → Bool)
    (se : String → String) (ca : List String) (files : List String) :
    downloadCount (signLoop p ig so se ca files).2 = 0 := by
  rw [downloadCount, List.length_eq_zero, List.filter_eq_nil_iff]
  intro e he
  obtain ⟨f, _, hfe⟩ := signLoop_events_mem p ig so se ca files e he
  simp [hfe, isDownloadCall]

theorem signLoop_extractCount (p : String) (ig : Bool) (so : String → Bool)
    (se : String → String) (ca : List String) (files : List String) :
    extractCount (signLoop p ig so se ca files).2 = 0 := by
  rw [extractCount, List.length_eq_zero, List.filter_eq_nil_iff]
  intro e he
  obtain ⟨f, _, hfe⟩ := signLoop_events_mem p ig so se ca files e he
  simp [hfe, isExtractCall]

theorem signLoop_metadataWriteCount (p : String) (ig : Bool) (so : String → Bool)
    (se : String → String) (ca : List String) (files : List String) :
    metadataWriteCount (signLoop p ig so se ca files).2 = 0 := by
  rw [metadataWriteCount, List.length_eq_zero, List.filter_eq_nil_iff]
  intro e he
  obtain ⟨f, _, hfe⟩ := signLoop_events_mem p ig so se ca files e he
  simp [hfe, isMetadataWrite]

/-! ## Lemmas about the stages -/

theorem signStage_fs (args : Args) (env : Env) (lp mp : String) (fs : FS) :
    (signStage args env lp mp fs).fs = fs := rfl

theorem loginStage_fs (args : Args) (env : Env) (lp mp : String) (fs : FS) :
    (loginStage args env lp mp fs).fs = fs := by
  unfold loginStage
  split <;> rfl

theorem metadataStage_fs_frame (args : Args) (env : Env) (lp mp : String) (fs : FS) :
    (metadataStage args env lp mp fs).fs.configDirExists = fs.configDirExists ∧
    (metadataStage args env lp mp fs).fs.libMarkerPresent = fs.libMarkerPresent ∧
    (metadataStage args env lp mp fs).fs.archivePresent = fs.archivePresent := by
  unfold metadataStage
  split
  · rw [loginStage_fs]
    exact ⟨rfl, rfl, rfl⟩
  · exact ⟨rfl, rfl, rfl⟩

theorem loginStage_downloadCount (args : Args) (env : Env) (lp mp : String) (fs : FS) :
    downloadCount (loginStage args env lp mp fs).events = 0 := by
  unfold loginStage
  split
  · simpa [signStage, downloadCount, isDownloadCall] using
      signLoop_downloadCount args.sign_tool_path args.ignore_unsupported env.signOk
        env.signErr _ args.file
  · rfl

theorem loginStage_extractCount (args : Args) (env : Env) (lp mp : String) (fs : FS) :
    extractCount (loginStage args env lp mp fs).events = 0 := by
  unfold loginStage
  split
  · simpa [signStage, extractCount, isExtractCall] using
      signLoop_extractCount args.sign_tool_path args.ignore_unsupported env.signOk
        env.signErr _ args.file
  · rfl

theorem metadataStage_downloadCount (args : Args) (env : Env) (lp mp : String) (fs : FS) :
    downloadCount (metadataStage args env lp mp fs).events = 0 := by
  unfold metadataStage
  split
  · simpa [downloadCount, isDownloadCall] using
      loginStage_downloadCount args env lp mp _
  · rfl

theorem metadataStage_extractCount (args : Args) (env : Env) (lp mp : String) (fs : FS) :
    extractCount (metadataStage args env lp mp fs).events = 0 := by
  unfold metadataStage
  split
  · simpa [extractCount, isExtractCall] using
      loginStage_extractCount args env lp mp _
  · rfl

theorem libStage_marker (args : Args) (env : Env) (cd : String) (fs : FS)
    (hm : fs.libMarkerPresent = true) :
    libStage args env cd fs =
      metadataStage args env (libPathOf cd) (metadataPathOf cd) fs := by
  simp [libStage, hm]

/-- When the library marker file is already present, a run leaves the
library subtree untouched and performs no download and no extraction. -/
theorem run_marker_frame (args : Args) (env : Env) (fs : FS)
    (hm : fs.libMarkerPresent = true) :
    (run args env fs).fs.libMarkerPresent = true ∧
    (run args env fs).fs.archivePresent = fs.archivePresent ∧
    downloadCount (run args env fs).events = 0 ∧
    extractCount (run args env fs).events = 0 := by
  unfold run
  cases h1 : env.azureCliExists with
  | false => simp [hm, downloadCount, extractCount]
  | true =>
    cases h2 : env.signToolExists with
    | false => simp [hm, downloadCount, extractCount]
    | true =>
      cases h3 : env.homeDir with
      | none => simp [hm, downloadCount, extractCount]
      | some home =>
        simp only [Bool.not_true, Bool.false_eq_true, if_false]
        unfold dirStage
        cases hcd : fs.configDirExists with
        | true =>
          rw [if_pos rfl, libStage_marker args env _ fs hm]
          refine ⟨?_, ?_, metadataStage_downloadCount .., metadataStage_extractCount ..⟩
          · rw [(metadataStage_fs_frame ..).2.1, hm]
          · exact (metadataStage_fs_frame ..).2.2
        | false =>
          rw [if_neg (by simp)]
          cases hcr : env.createDirOk with
          | true =>
            rw [if_pos rfl]
            have hm2 : ({ fs with configDirExists := true } : FS).libMarkerPresent = true := hm
            rw [libStage_marker args env _ _ hm2]
            refine ⟨?_, ?_, ?_, ?_⟩
            · rw [(metadataStage_fs_frame ..).2.1]; exact hm2
            · exact (metadataStage_fs_frame ..).2.2
            · simpa [downloadCount, isDownloadCall] using metadataStage_downloadCount ..
            · simpa [extractCount, isExtractCall] using metadataStage_extractCount ..
          | false =>
            rw [if_neg (by simp)]
            simp [hm, downloadCount, extractCount]

/-! ## Every sign invocation is the template plus one file -/

theorem signStage_signCall_mem (args : Args) (env : Env) (lp mp : String) (fs : FS)
    (argv : List String) (h : Event.signCall argv ∈ (signStage args env lp mp fs).events) :
    ∃ f ∈ args.file,
      argv = buildCmdArgs args.fd args.tr args.td lp mp args.description ++ [f] := by
  obtain ⟨f, hf, hfe⟩ := signLoop_events_mem args.sign_tool_path args.ignore_unsupported
    env.signOk env.signErr _ args.file _ h
  exact ⟨f, hf, by injection hfe⟩

theorem loginStage_signCall_mem (args : Args) (env : Env) (lp mp : String) (fs : FS)
    (argv : List String) (h : Event.signCall argv ∈ (loginStage args env lp mp fs).events) :
    ∃ f ∈ args.file,
      argv = buildCmdArgs args.fd args.tr args.td lp mp args.description ++ [f] := by
  unfold loginStage at h
  split at h
  · simp only [List.mem_cons] at h
    rcases h with h | h
    · cases h
    · exact signStage_signCall_mem args env lp mp fs argv h
  · simp at h

theorem metadataStage_signCall_mem (args : Args) (env : Env) (lp mp : String) (fs : FS)
    (argv : List String) (h : Event.signCall argv ∈ (metadataStage args env lp mp fs).events) :
    ∃ f ∈ args.file,
      argv = buildCmdArgs args.fd args.tr args.td lp mp args.description ++ [f] := by
  unfold metadataStage at h
  split at h
  · simp only [List.mem_cons] at h
    rcases h with h | h
    · cases h
    · exact loginStage_signCall_mem args env lp mp _ argv h
  · simp at h

theorem libStage_signCall_mem (args : Args) (env : Env) (cd : String) (fs : FS)
    (argv : List String) (h : Event.signCall argv ∈ (libStage args env cd fs).events) :
    ∃ f ∈ args.file,
      argv = buildCmdArgs args.fd args.tr args.td (libPathOf cd) (metadataPathOf cd)
        args.description ++ [f] := by
  unfold libStage at h
  dsimp only at h
  split at h
  · exact metadataStage_signCall_mem args env _ _ fs argv h
  · split at h
    · simp at h
    · split at h
      · simp only [List.mem_cons] at h
        rcases h with h | h
        · cases h
        · rcases h with h | h
          · cases h
          · exact metadataStage_signCall_mem args env _ _ _ argv h
      · simp at h

theorem dirStage_signCall_mem (args : Args) (env : Env) (home : String) (fs : FS)
    (argv : List String) (h : Event.signCall argv ∈ (dirStage args env home fs).events) :
    ∃ f ∈ args.file,
      argv = buildCmdArgs args.fd args.tr args.td (libPathOf (configDirOf home))
        (metadataPathOf (configDirOf home)) args.description ++ [f] := by
  unfold dirStage at h
  split at h
  · exact libStage_signCall_mem args env _ fs argv h
  · split at h
    · simp only [List.mem_cons] at h
      rcases h with h | h
      · cases h
      · exact libStage_signCall_mem args env _ _ argv h
    · simp at h

theorem run_signCall_mem (args : Args) (env : Env) (fs : FS)
    (argv : List String) (h : Event.signCall argv ∈ (run args env fs).events) :
    ∃ home, env.homeDir = some home ∧
      ∃ f ∈ args.file,
        argv = buildCmdArgs args.fd args.tr args.td (libPathOf (configDirOf home))
          (metadataPathOf (configDirOf home)) args.description ++ [f] := by
  unfold run at h
  split at h
  · simp at h
  · split at h
    · simp at h
    · split at h
      · simp at h
      · next home heq =>
        exact ⟨home, heq, dirStage_signCall_mem args env home fs argv h⟩

/-! ## Characterization of a run whose setup stages all succeed -/

theorem run_setup (args : Args) (env : Env) (fs : FS) (home : String)
    (h1 : env.azureCliExists = true) (h2 : env.signToolExists = true)
    (h3 : env.homeDir = some home)
    (h4 : fs.configDirExists = true ∨ env.createDirOk = true)
    (h5 : fs.libMarkerPresent = true ∨
      (env.urlParseOk = true ∧ env.downloadOk = true ∧ env.extractOk = true))
    (h6 : env.writeOk = true) (h7 : env.loginOk = true) :
    run args env fs =
      ⟨(signLoop args.sign_tool_path args.ignore_unsupported env.signOk env.signErr
          (templateOf args home) args.file).1,
       ⟨true, true, (if fs.libMarkerPresent then fs.archivePresent else true),
        some (metadataOf args).toJson⟩,
       (if fs.configDirExists then [] else [.createConfigDir]) ++
       (if fs.libMarkerPresent then [] else [.downloadCall, .extractCall]) ++
       .metadataWrite (metadataOf args).toJson :: .loginCall ::
         (signLoop args.sign_tool_path args.ignore_unsupported env.signOk env.signErr
           (templateOf args home) args.file).2⟩ := by
  cases hcd : fs.configDirExists with
  | true =>
    cases hlib : fs.libMarkerPresent with
    | true =>
      simp [run, dirStage, libStage, metadataStage, loginStage, signStage, templateOf,
        h1, h2, h3, h6, h7, hcd, hlib]
    | false =>
      rcases h5 with h5 | ⟨h5a, h5b, h5c⟩
      · exact absurd h5 (by simp [hlib])
      · simp [run, dirStage, libStage, metadataStage, loginStage, signStage, templateOf,
          h1, h2, h3, h5a, h5b, h5c, h6, h7, hcd, hlib]
  | false =>
    have hcr : env.createDirOk = true := by
      rcases h4 with h4 | h4
      · exact absurd h4 (by simp [hcd])
      · exact h4
    cases hlib : fs.libMarkerPresent with
    | true =>
      simp [run, dirStage, libStage, metadataStage, loginStage, signStage, templateOf,
        h1, h2, h3, h6, h7, hcd, hcr, hlib]
    | false =>
      rcases h5 with h5 | ⟨h5a, h5b, h5c⟩
      · exact absurd h5 (by simp [hlib])
      · simp [run, dirStage, libStage, metadataStage, loginStage, signStage, templateOf,
          h1, h2, h3, h5a, h5b, h5c, h6, h7, hcd, hcr, hlib]

/-! ## Result characterization -/

theorem loginStage_result (args : Args) (env : Env) (lp mp : String) (fs : FS) :
    (loginStage args env lp mp fs).result =
      if env.loginOk then
        (signLoop args.sign_tool_path args.ignore_unsupported env.signOk env.signErr
          (buildCmdArgs args.fd args.tr args.td lp mp args.description) args.file).1
      else .err (loginErrMsg args.azure_cli_path env.loginErr) := by
  unfold loginStage signStage
  split <;> simp_all

theorem metadataStage_result (args : Args) (env : Env) (lp mp : String) (fs : FS) :
    (metadataStage args env lp mp fs).result =
      if env.writeOk then
        (if env.loginOk then
          (signLoop args.sign_tool_path args.ignore_unsupported env.signOk env.signErr
            (buildCmdArgs args.fd args.tr args.td lp mp args.description) args.file).1
        else .err (loginErrMsg args.azure_cli_path env.loginErr))
      else .err (writeErrMsg env.writeErr) := by
  unfold metadataStage
  dsimp only
  cases hw : env.writeOk with
  | false => simp [hw]
  | true => simp [hw, loginStage_result]

theorem libStage_result (args : Args) (env : Env) (cd : String) (fs : FS) :
    (libStage args env cd fs).result =
      if fs.libMarkerPresent = false ∧ env.urlParseOk = false then
        .err (downloadErrMsg env.urlErr)
      else if fs.libMarkerPresent = false ∧ (env.downloadOk && env.extractOk) = false then
        .err (extractErrMsg env.extractErr)
      else if env.writeOk = false then .err (writeErrMsg env.writeErr)
      else if env.loginOk = false then .err (loginErrMsg args.azure_cli_path env.loginErr)
      else
        (signLoop args.sign_tool_path args.ignore_unsupported env.signOk env.signErr
          (buildCmdArgs args.fd args.tr args.td (libPathOf cd) (metadataPathOf cd)
            args.description) args.file).1 := by
  unfold libStage
  cases hlib : fs.libMarkerPresent with
  | true =>
    rw [if_pos rfl, metadataStage_result]
    cases hw : env.writeOk <;> cases hl : env.loginOk <;> simp [hlib, hw, hl]
  | false =>
    rw [if_neg (by simp)]
    cases hu : env.urlParseOk with
    | false => simp [hlib, hu]
    | true =>
      rw [if_neg (by simp)]
      dsimp only
      cases hde : (env.downloadOk && env.extractOk) with
      | false => simp [hlib, hu, hde]
      | true =>
        rw [if_pos rfl]
        dsimp only
        rw [metadataStage_result]
        cases hw : env.writeOk <;> cases hl : env.loginOk <;> simp [hlib, hu, hde, hw, hl]

theorem dirStage_result (args : Args) (env : Env) (home : String) (fs : FS) :
    (dirStage args env home fs).result =
      if fs.configDirExists = false ∧ env.createDirOk = false then
        .err (configDirErrMsg (configDirOf home) env.createDirErr)
      else (libStage args env (configDirOf home)
        { fs with configDirExists := true }).result := by
  unfold dirStage
  cases hcd : fs.configDirExists with
  | true =>
    rw [if_pos rfl, if_neg (by simp [hcd])]
    have : ({ fs with configDirExists := true } : FS) = fs := by
      cases fs
      simp_all
    rw [this]
  | false =>
    rw [if_neg (by simp)]
    cases hcr : env.createDirOk with
    | true => rw [if_pos rfl, if_neg (by simp [hcr])]
    | false => simp [hcd, hcr]

/-- libStage's result does not depend on the archive/metadata fields. -/
theorem libStage_result_config (args : Args) (env : Env) (cd : String) (fs : FS) :
    (libStage args env (cd) { fs with configDirExists := true }).result =
      (libStage args env cd fs).result := by
  rw [libStage_result, libStage_result]

/-- The outcome of `run`, projected to the result. -/
theorem run_result (args : Args) (env : Env) (fs : FS) :
    (run args env fs).result =
      if env.azureCliExists = false then .err (azureCliMissingMsg args.azure_cli_path)
      else if env.signToolExists = false then .err (signToolMissingMsg args.sign_tool_path)
      else
        match env.homeDir with
        | none => .panicked "could not find home directory"
        | some home =>
          if fs.configDirExists = false ∧ env.createDirOk = false then
            .err (configDirErrMsg (configDirOf home) env.createDirErr)
          else if fs.libMarkerPresent = false ∧ env.urlParseOk = false then
            .err (downloadErrMsg env.urlErr)
          else if fs.libMarkerPresent = false ∧ (env.downloadOk && env.extractOk) = false then
            .err (extractErrMsg env.extractErr)
          else if env.writeOk = false then .err (writeErrMsg env.writeErr)
          else if env.loginOk = false then .err (loginErrMsg args.azure_cli_path env.loginErr)
          else
            (signLoop args.sign_tool_path args.ignore_unsupported env.signOk env.signErr
              (templateOf args home) args.file).1 := by
  unfold run
  cases h1 : env.azureCliExists with
  | false => simp
  | true =>
    cases h2 : env.signToolExists with
    | false => simp
    | true =>
      cases h3 : env.homeDir with
      | none => simp
      | some home =>
        simp only [Bool.not_true, Bool.false_eq_true, Bool.true_eq_false, if_false]
        rw [dirStage_result]
        split
        · rfl
        · rw [libStage_result_config, libStage_result, templateOf]

/-- A run returns `Ok` exactly when every stage succeeds. -/
theorem run_ok_iff (args : Args) (env : Env) (fs : FS) :
    (run args env fs).result = .ok ↔ runSucceeds args env fs = true := by
  rw [run_result]
  unfold runSucceeds
  cases h1 : env.azureCliExists with
  | false => simp
  | true =>
    cases h2 : env.signToolExists with
    | false => simp
    | true =>
      cases h3 : env.homeDir with
      | none => simp
      | some home =>
        simp only [Bool.true_eq_false, if_false, Option.isSome_some, Bool.true_and]
        cases hcd : fs.configDirExists <;> cases hcr : env.createDirOk <;>
          cases hlib : fs.libMarkerPresent <;> cases hu : env.urlParseOk <;>
          cases hdo : env.downloadOk <;> cases hx : env.extractOk <;>
          cases hw : env.writeOk <;> cases hl : env.loginOk <;>
          simp [signLoop_eq_signPlain, signPlain_ok_iff]

/-! ## The serialization is lossless: a decode round-trip -/

theorem hexVal_hexDigit (n : Nat) (h : n < 16) :
    hexVal? (hexDigitChar n) = some n := by
  interval_cases n <;> decide

theorem parse_escapeChar (c : Char) (tail : List Char) :
    parseStringBody (jsonEscapeChar c ++ tail) =
      (parseStringBody tail).map (fun q => (c :: q.1, q.2)) := by
  by_cases h1 : c = '"'
  · subst h1
    rw [(by decide : jsonEscapeChar '"' = ['\\', '"'])]
    simp only [List.cons_append, List.nil_append]
    rw [parseStringBody.eq_def]
    cases hp : parseStringBody tail <;> simp +decide [unescapeShort?, hp]
  by_cases h2 : c = '\\'
  · subst h2
    rw [(by decide : jsonEscapeChar '\\' = ['\\', '\\'])]
    simp only [List.cons_append, List.nil_append]
    rw [parseStringBody.eq_def]
    cases hp : parseStringBody tail <;> simp +decide [unescapeShort?, hp]
  by_cases h3 : c = Char.ofNat 8
  · subst h3
    rw [(by decide : jsonEscapeChar (Char.ofNat 8) = ['\\', 'b'])]
    simp only [List.cons_append, List.nil_append]
    rw [parseStringBody.eq_def]
    cases hp : parseStringBody tail <;> simp +decide [unescapeShort?, hp]
  by_cases h4 : c = Char.ofNat 9
  · subst h4
    rw [(by decide : jsonEscapeChar (Char.ofNat 9) = ['\\', 't'])]
    simp only [List.cons_append, List.nil_append]
    rw [parseStringBody.eq_def]
    cases hp : parseStringBody tail <;> simp +decide [unescapeShort?, hp]
  by_cases h5 : c = Char.ofNat 10
  · subst h5
    rw [(by decide : jsonEscapeChar (Char.ofNat 10) = ['\\', 'n'])]
    simp only [List.cons_append, List.nil_append]
    rw [parseStringBody.eq_def]
    cases hp : parseStringBody tail <;> simp +decide [unescapeShort?, hp]
  by_cases h6 : c = Char.ofNat 12
  · subst h6
    rw [(by decide : jsonEscapeChar (Char.ofNat 12) = ['\\', 'f'])]
    simp only [List.cons_append, List.nil_append]
    rw [parseStringBody.eq_def]
    cases hp : parseStringBody tail <;> simp +decide [unescapeShort?, hp]
  by_cases h7 : c = Char.ofNat 13
  · subst h7
    rw [(by decide : jsonEscapeChar (Char.ofNat 13) = ['\\', 'r'])]
    simp only [List.cons_append, List.nil_append]
    rw [parseStringBody.eq_def]
    cases hp : parseStringBody tail <;> simp +decide [unescapeShort?, hp]
  by_cases h8 : c.toNat < 32
  · have hesc : jsonEscapeChar c =
        ['\\', 'u', '0', '0', hexDigitChar (c.toNat / 16), hexDigitChar (c.toNat % 16)] := by
      simp [jsonEscapeChar, h1, h2, h3, h4, h5, h6, h7, h8]
    have hhi : c.toNat / 16 < 16 := by
      have := Nat.div_le_self c.toNat 16
      omega
    have hlo : c.toNat % 16 < 16 := Nat.mod_lt _ (by norm_num)
    have e0 : hexVal? '0' = some 0 := by decide
    have e3 := hexVal_hexDigit _ hhi
    have e4 := hexVal_hexDigit _ hlo
    rw [hesc]
    simp only [List.cons_append, List.nil_append]
    rw [parseStringBody.eq_def]
    have harith : Char.ofNat (c.toNat / 16 * 16 + c.toNat % 16) = c := by
      have hdm : c.toNat / 16 * 16 + c.toNat % 16 = c.toNat := by omega
      rw [hdm]
      exact Char.ofNat_toNat c
    cases hp : parseStringBody tail <;> simp +decide [e0, e3, e4, hp, harith]
  · have hesc : jsonEscapeChar c = [c] := by
      simp [jsonEscapeChar, h1, h2, h3, h4, h5, h6, h7, h8]
    rw [hesc]
    simp only [List.cons_append, List.nil_append]
    rw [parseStringBody.eq_def]
    cases hp : parseStringBody tail <;> simp [h1, h2, hp]

theorem parse_escapeList (cs tail : List Char) :
    parseStringBody (jsonEscapeList cs ++ '"' :: tail) = some (cs, tail) := by
  induction cs with
  | nil =>
    simp only [jsonEscapeList, List.map_nil, List.flatten_nil, List.nil_append]
    rw [parseStringBody.eq_def]
    simp
  | cons c rest ih =>
    have : jsonEscapeList (c :: rest) = jsonEscapeChar c ++ jsonEscapeList rest := by
      simp [jsonEscapeList]
    rw [this, List.append_assoc, parse_escapeChar, ih]
    rfl

theorem stripPre_append (ps cs : List Char) : stripPre ps (ps ++ cs) = some cs := by
  induction ps with
  | nil => rfl
  | cons p rest ih => simp [stripPre, ih]

theorem parseField_correct (k v : String) (rest : List Char) :
    parseField k (jsonKV (k, v) ++ rest) = some (v, rest) := by
  unfold parseField
  have h : jsonKV (k, v) ++ rest =
      (jsonStringChars k ++ [':', '"']) ++ (jsonEscapeList v.data ++ '"' :: rest) := by
    simp [jsonKV, jsonStringChars]
  rw [h, stripPre_append]
  dsimp only
  rw [parse_escapeList]

/-- Round-trip: the three field values are recoverable from the exact
serialized text, under the exact external field names. -/
theorem decode_toJson (m : Metadata) : decodeMetadata m.toJson = some m := by
  obtain ⟨e, a, p⟩ := m
  unfold decodeMetadata Metadata.toJson
  dsimp only
  simp only [List.append_assoc, List.cons_append]
  rw [if_pos (by trivial), parseField_correct]
  dsimp only
  rw [if_pos (by trivial), parseField_correct]
  dsimp only
  rw [if_pos (by trivial), parseField_correct]
  simp

/-! ## Claim theorems -/

/-- C1: `is_supported` is a pure total Boolean function returning true
iff the filename's extension (case as given) is one of the fixed closed
set of 18 extensions; a filename with no extension (such as README) or
with an unknown extension (such as notes.txt) yields false. -/
theorem extension_classifier_spec :
    (∀ f : String, is_supported f = true ↔
      ∃ e, extension f = some e ∧ e ∈ supported_extensions) ∧
    supported_extensions =
      ["appx", "msix", "appxbundle", "msixbundle",
       "cab", "cat", "dll", "exe", "js", "vbs", "wsf",
       "msi", "msp", "mst", "ocx", "ps1", "stl", "sys"] ∧
    is_supported "app.exe" = true ∧ is_supported "pkg.msix" = true ∧
    is_supported "driver.sys" = true ∧ is_supported "notes.txt" = false ∧
    is_supported "README" = false ∧ is_supported "APP.EXE" = false := by
  refine ⟨fun f => ?_, rfl, by decide, by decide, by decide, by decide, by decide, by decide⟩
  unfold is_supported
  cases hext : extension f with
  | none => simp +decide
  | some e => simp [List.contains, List.elem_iff]

/-- C2: when the library marker file already exists, a run performs no
download and no filesystem mutation of the library subtree, and a second
run in succession still performs none — so the download collaborator is
invoked at most once (here: zero times) across both runs. -/
theorem provisioning_idempotent (args args2 : Args) (env env2 : Env) (fs : FS)
    (hm : fs.libMarkerPresent = true) :
    downloadCount (run args env fs).events = 0 ∧
    extractCount (run args env fs).events = 0 ∧
    (run args env fs).fs.libMarkerPresent = true ∧
    (run args env fs).fs.archivePresent = fs.archivePresent ∧
    downloadCount (run args2 env2 (run args env fs).fs).events = 0 ∧
    extractCount (run args2 env2 (run args env fs).fs).events = 0 ∧
    (run args2 env2 (run args env fs).fs).fs.libMarkerPresent = true ∧
    (run args2 env2 (run args env fs).fs).fs.archivePresent = fs.archivePresent ∧
    downloadCount (run args env fs).events +
      downloadCount (run args2 env2 (run args env fs).fs).events ≤ 1 := by
  obtain ⟨hl1, ha1, hd1, he1⟩ := run_marker_frame args env fs hm
  obtain ⟨hl2, ha2, hd2, he2⟩ := run_marker_frame args2 env2 _ hl1
  exact ⟨hd1, he1, hl1, ha1, hd2, he2, hl2, ha2.trans ha1, by omega⟩

theorem provisioning_idempotent_witness :
    provisionedFS.libMarkerPresent = true ∧
    (downloadCount (run sampleArgs sampleEnv provisionedFS).events = 0 ∧
     extractCount (run sampleArgs sampleEnv provisionedFS).events = 0 ∧
     (run sampleArgs sampleEnv provisionedFS).fs.libMarkerPresent = true ∧
     (run sampleArgs sampleEnv provisionedFS).fs.archivePresent =
       provisionedFS.archivePresent ∧
     downloadCount
       (run sampleArgs sampleEnv (run sampleArgs sampleEnv provisionedFS).fs).events = 0 ∧
     extractCount
       (run sampleArgs sampleEnv (run sampleArgs sampleEnv provisionedFS).fs).events = 0 ∧
     (run sampleArgs sampleEnv
       (run sampleArgs sampleEnv provisionedFS).fs).fs.libMarkerPresent = true ∧
     (run sampleArgs sampleEnv
       (run sampleArgs sampleEnv provisionedFS).fs).fs.archivePresent =
       provisionedFS.archivePresent ∧
     downloadCount (run sampleArgs sampleEnv provisionedFS).events +
       downloadCount
         (run sampleArgs sampleEnv (run sampleArgs sampleEnv provisionedFS).fs).events ≤ 1) :=
  ⟨by decide,
   provisioning_idempotent sampleArgs sampleArgs sampleEnv sampleEnv provisionedFS (by decide)⟩

/-- C5: a missing azure CLI path or signtool path aborts the run with a
configuration error mentioning the overriding environment variable,
before any side effect: no event occurs and the filesystem is unchanged. -/
theorem tool_path_validation (args : Args) (env : Env) (fs : FS)
    (h : env.azureCliExists = false ∨ env.signToolExists = false) :
    (∃ m, (run args env fs).result = .err m) ∧
    (run args env fs).fs = fs ∧
    (run args env fs).events = [] ∧
    (env.azureCliExists = false →
      (run args env fs).result = .err (azureCliMissingMsg args.azure_cli_path)) ∧
    (env.azureCliExists = true → env.signToolExists = false →
      (run args env fs).result = .err (signToolMissingMsg args.sign_tool_path)) ∧
    (∃ x, azureCliMissingMsg args.azure_cli_path = x ++ "AZURE_CLI_PATH") ∧
    (∃ x, signToolMissingMsg args.sign_tool_path = x ++ "SIGNTOOL_PATH") := by
  have hcli : ∃ x, azureCliMissingMsg args.azure_cli_path = x ++ "AZURE_CLI_PATH" := by
    refine ⟨"azure cli " ++ args.azure_cli_path ++
      " does not exists, please specify PATH with env ", ?_⟩
    simp only [azureCliMissingMsg, String.append_assoc]
    rfl
  have hst : ∃ x, signToolMissingMsg args.sign_tool_path = x ++ "SIGNTOOL_PATH" := by
    refine ⟨"signtool " ++ args.sign_tool_path ++
      " does not exists, please specify PATH with env ", ?_⟩
    simp only [signToolMissingMsg, String.append_assoc]
    rfl
  cases hc : env.azureCliExists with
  | false =>
    have hres : (run args env fs).result = .err (azureCliMissingMsg args.azure_cli_path) := by
      simp [run, hc]
    refine ⟨⟨_, hres⟩, by simp [run, hc], by simp [run, hc], fun _ => hres,
      fun hT => absurd hT (by simp), hcli, hst⟩
  | true =>
    rcases h with h | h
    · exact absurd hc (by simp [h])
    · have hres : (run args env fs).result = .err (signToolMissingMsg args.sign_tool_path) := by
        simp [run, hc, h]
      refine ⟨⟨_, hres⟩, by simp [run, hc, h], by simp [run, hc, h],
        fun hF => absurd hF (by simp), fun _ _ => hres, hcli, hst⟩

theorem tool_path_validation_witness :
    (envNoCli.azureCliExists = false ∨ envNoCli.signToolExists = false) ∧
    ((∃ m, (run sampleArgs envNoCli emptyFS).result = .err m) ∧
     (run sampleArgs envNoCli emptyFS).fs = emptyFS ∧
     (run sampleArgs envNoCli emptyFS).events = [] ∧
     (envNoCli.azureCliExists = false →
       (run sampleArgs envNoCli emptyFS).result =
         .err (azureCliMissingMsg sampleArgs.azure_cli_path)) ∧
     (envNoCli.azureCliExists = true → envNoCli.signToolExists = false →
       (run sampleArgs envNoCli emptyFS).result =
         .err (signToolMissingMsg sampleArgs.sign_tool_path)) ∧
     (∃ x, azureCliMissingMsg sampleArgs.azure_cli_path = x ++ "AZURE_CLI_PATH") ∧
     (∃ x, signToolMissingMsg sampleArgs.sign_tool_path = x ++ "SIGNTOOL_PATH")) :=
  ⟨Or.inl (by decide),
   tool_path_validation sampleArgs envNoCli emptyFS (Or.inl (by decide))⟩

/-- After a provisioning pass whose download and extraction succeed (or
whose marker was already present), the marker file is present, whatever
happens in the later stages. -/
theorem libStage_marker_after (args : Args) (env : Env) (cd : String) (fs : FS)
    (hu : env.urlParseOk = true) (hdo : env.downloadOk = true) (hx : env.extractOk = true) :
    (libStage args env cd fs).fs.libMarkerPresent = true := by
  unfold libStage
  dsimp only
  cases hlib : fs.libMarkerPresent with
  | true =>
    rw [if_pos rfl, (metadataStage_fs_frame ..).2.1]
    exact hlib
  | false =>
    rw [if_neg (by simp), if_neg (by simp [hu]), if_pos (by simp [hdo, hx])]
    dsimp only
    rw [(metadataStage_fs_frame ..).2.1]

theorem run_marker_after (args : Args) (env : Env) (fs : FS) (home : String)
    (h1 : env.azureCliExists = true) (h2 : env.signToolExists = true)
    (h3 : env.homeDir = some home)
    (h4 : fs.configDirExists = true ∨ env.createDirOk = true)
    (hu : env.urlParseOk = true) (hdo : env.downloadOk = true)
    (hx : env.extractOk = true) :
    (run args env fs).fs.libMarkerPresent = true := by
  unfold run
  simp only [h1, h2, h3, Bool.not_true, Bool.false_eq_true, if_false]
  unfold dirStage
  dsimp only
  cases hcd : fs.configDirExists with
  | true =>
    rw [if_pos rfl]
    exact libStage_marker_after args env _ fs hu hdo hx
  | false =>
    have hcr : env.createDirOk = true := by
      rcases h4 with h4 | h4
      · exact absurd h4 (by simp [hcd])
      · exact h4
    rw [if_neg (by simp), if_pos hcr]
    exact libStage_marker_after args env _ _ hu hdo hx

/-- C3 counterexample: with the marker file absent and the network
download failing (the archive never materializes), the run does invoke
the downloader, fails — but the surfaced error is the extraction error
("signing client can't be unzipped"), not a download error: the source
discards the result of `downloader.download(..)`, so a download failure
is NOT surfaced as a download error, contradicting the claim. -/
theorem download_failure_misattributed :
    envDownloadFail.downloadOk = false ∧
    emptyFS.libMarkerPresent = false ∧
    downloadCount (run sampleArgs envDownloadFail emptyFS).events = 1 ∧
    (run sampleArgs envDownloadFail emptyFS).result =
      .err (extractErrMsg envDownloadFail.extractErr) ∧
    (run sampleArgs envDownloadFail emptyFS).result ≠
      .err (downloadErrMsg envDownloadFail.urlErr) ∧
    (run sampleArgs envDownloadFail emptyFS).fs.libMarkerPresent = false := by
  decide

/-- C3 (amended): when the marker file is absent and the earlier stages
pass, provisioning either ends with the marker file present or fails
with a setup error carrying the underlying cause; a failure to build the
download request is surfaced as a download error, while an extraction
failure or an undetected network download failure is surfaced as an
extraction error. -/
theorem provisioning_outcome (args : Args) (env : Env) (fs : FS) (home : String)
    (h1 : env.azureCliExists = true) (h2 : env.signToolExists = true)
    (h3 : env.homeDir = some home)
    (h4 : fs.configDirExists = true ∨ env.createDirOk = true)
    (hm : fs.libMarkerPresent = false) :
    ((run args env fs).fs.libMarkerPresent = true ∨
      (run args env fs).result = .err (downloadErrMsg env.urlErr) ∨
      (run args env fs).result = .err (extractErrMsg env.extractErr)) ∧
    (env.urlParseOk = false →
      (run args env fs).result = .err (downloadErrMsg env.urlErr)) ∧
    (env.urlParseOk = true → (env.downloadOk && env.extractOk) = false →
      (run args env fs).result = .err (extractErrMsg env.extractErr)) ∧
    (env.urlParseOk = true → env.downloadOk = true → env.extractOk = true →
      (run args env fs).fs.libMarkerPresent = true) := by
  have hnotcd : ¬(fs.configDirExists = false ∧ env.createDirOk = false) := by
    rcases h4 with h4 | h4 <;> simp [h4]
  have hdl : env.urlParseOk = false →
      (run args env fs).result = .err (downloadErrMsg env.urlErr) := by
    intro hu
    rw [run_result, h3]
    simp [h1, h2, hm, hu, hnotcd]
  have hex : env.urlParseOk = true → (env.downloadOk && env.extractOk) = false →
      (run args env fs).result = .err (extractErrMsg env.extractErr) := by
    intro hu hde
    rw [run_result, h3]
    simp [h1, h2, hm, hu, hde, hnotcd]
  have hmk : env.urlParseOk = true → env.downloadOk = true → env.extractOk = true →
      (run args env fs).fs.libMarkerPresent = true :=
    fun hu hdo hx => run_marker_after args env fs home h1 h2 h3 h4 hu hdo hx
  refine ⟨?_, hdl, hex, hmk⟩
  cases hu : env.urlParseOk with
  | false => exact Or.inr (Or.inl (hdl hu))
  | true =>
    cases hde : (env.downloadOk && env.extractOk) with
    | false => exact Or.inr (Or.inr (hex hu hde))
    | true =>
      obtain ⟨hdo, hx⟩ := Bool.and_eq_true_iff.mp hde
      exact Or.inl (hmk hu hdo hx)

theorem provisioning_outcome_witness :
    (sampleEnv.azureCliExists = true ∧ sampleEnv.signToolExists = true ∧
     sampleEnv.homeDir = some "/home/u" ∧
     (emptyFS.configDirExists = true ∨ sampleEnv.createDirOk = true) ∧
     emptyFS.libMarkerPresent = false) ∧
    (((run sampleArgs sampleEnv emptyFS).fs.libMarkerPresent = true ∨
      (run sampleArgs sampleEnv emptyFS).result =
        .err (downloadErrMsg sampleEnv.urlErr) ∨
      (run sampleArgs sampleEnv emptyFS).result =
        .err (extractErrMsg sampleEnv.extractErr)) ∧
     (sampleEnv.urlParseOk = false →
       (run sampleArgs sampleEnv emptyFS).result =
         .err (downloadErrMsg sampleEnv.urlErr)) ∧
     (sampleEnv.urlParseOk = true → (sampleEnv.downloadOk && sampleEnv.extractOk) = false →
       (run sampleArgs sampleEnv emptyFS).result =
         .err (extractErrMsg sampleEnv.extractErr)) ∧
     (sampleEnv.urlParseOk = true → sampleEnv.downloadOk = true →
       sampleEnv.extractOk = true →
       (run sampleArgs sampleEnv emptyFS).fs.libMarkerPresent = true)) :=
  ⟨⟨by decide, by decide, by decide, Or.inr (by decide), by decide⟩,
   provisioning_outcome sampleArgs sampleEnv emptyFS "/home/u"
     (by decide) (by decide) (by decide) (Or.inr (by decide)) (by decide)⟩

/-- C4: every run that reaches the metadata stage writes exactly one
metadata file whose content is the serialization of the run's
endpoint/account/certificate under the external field names `Endpoint`,
`CodeSigningAccountName`, `CertificateProfileName`; the write replaces
any previous content unconditionally, so after a run with metadata A
followed by a run with metadata B only B's three field values are
recoverable (by `decodeMetadata`) from the file. -/
theorem metadata_write_spec (args1 args2 : Args) (env1 env2 : Env) (fs : FS)
    (home1 home2 : String)
    (ha : env1.azureCliExists = true) (hb : env1.signToolExists = true)
    (hc : env1.homeDir = some home1)
    (hd : fs.configDirExists = true ∨ env1.createDirOk = true)
    (he : fs.libMarkerPresent = true ∨
      (env1.urlParseOk = true ∧ env1.downloadOk = true ∧ env1.extractOk = true))
    (hf : env1.writeOk = true) (hg : env1.loginOk = true)
    (ha2 : env2.azureCliExists = true) (hb2 : env2.signToolExists = true)
    (hc2 : env2.homeDir = some home2)
    (hf2 : env2.writeOk = true) (hg2 : env2.loginOk = true) :
    (run args2 env2 (run args1 env1 fs).fs).fs.metadataFile =
      some (metadataOf args2).toJson ∧
    metadataWriteCount (run args2 env2 (run args1 env1 fs).fs).events = 1 ∧
    Event.metadataWrite (metadataOf args2).toJson ∈
      (run args2 env2 (run args1 env1 fs).fs).events ∧
    decodeMetadata (metadataOf args2).toJson = some (metadataOf args2) ∧
    (metadataOf args2).fields.map Prod.fst =
      ["Endpoint", "CodeSigningAccountName", "CertificateProfileName"] ∧
    metadataOf args2 = ⟨args2.endpoint, args2.account, args2.certificate⟩ := by
  rw [run_setup args1 env1 fs home1 ha hb hc hd he hf hg]
  rw [run_setup args2 env2 _ home2 ha2 hb2 hc2 (Or.inl rfl) (Or.inl rfl) hf2 hg2]
  refine ⟨rfl, ?_, by simp, decode_toJson _, rfl, rfl⟩
  have h0 := signLoop_metadataWriteCount args2.sign_tool_path args2.ignore_unsupported
    env2.signOk env2.signErr (templateOf args2 home2) args2.file
  simp [metadataWriteCount, isMetadataWrite] at h0 ⊢
  exact h0

theorem metadata_write_spec_witness :
    (sampleEnv.azureCliExists = true ∧ sampleEnv.writeOk = true) ∧
    ((run argsB sampleEnv (run sampleArgs sampleEnv emptyFS).fs).fs.metadataFile =
       some (metadataOf argsB).toJson ∧
     metadataWriteCount
       (run argsB sampleEnv (run sampleArgs sampleEnv emptyFS).fs).events = 1 ∧
     Event.metadataWrite (metadataOf argsB).toJson ∈
       (run argsB sampleEnv (run sampleArgs sampleEnv emptyFS).fs).events ∧
     decodeMetadata (metadataOf argsB).toJson = some (metadataOf argsB) ∧
     (metadataOf argsB).fields.map Prod.fst =
       ["Endpoint", "CodeSigningAccountName", "CertificateProfileName"] ∧
     metadataOf argsB = ⟨argsB.endpoint, argsB.account, argsB.certificate⟩) :=
  ⟨⟨by decide, by decide⟩,
   metadata_write_spec sampleArgs argsB sampleEnv sampleEnv emptyFS "/home/u" "/home/u"
     (by decide) (by decide) (by decide) (Or.inr (by decide))
     (Or.inr ⟨by decide, by decide, by decide⟩) (by decide) (by decide)
     (by decide) (by decide) (by decide) (by decide) (by decide)⟩

theorem signArgvs_append (a b : List Event) :
    signArgvs (a ++ b) = signArgvs a ++ signArgvs b := by
  simp [signArgvs]

theorem filterMap_signCall_map (ca : List String) (l : List String) :
    List.filterMap
      ((fun e => match e with
         | Event.signCall argv => some argv
         | _ => none) ∘ fun f => Event.signCall (ca ++ [f])) l =
      l.map fun f => ca ++ [f] := by
  induction l with
  | nil => rfl
  | cons f rest ih => simp_all [List.filterMap_cons, Function.comp]

/-- C6: every signtool invocation of a run consists of the one fixed
template (computed from the run configuration and home directory) plus
exactly one trailing file; the template is the fixed ordered flag
sequence, with a /d description pair at the end iff a description was
supplied. -/
theorem sign_template_spec (args : Args) (env : Env) (fs : FS) :
    (∀ argv, Event.signCall argv ∈ (run args env fs).events →
      ∃ home, env.homeDir = some home ∧
        ∃ f ∈ args.file, argv = templateOf args home ++ [f]) ∧
    (∀ home, args.description = none →
      templateOf args home =
        ["sign", "/v", "/fd", args.fd, "/tr", args.tr, "/td", args.td,
         "/dlib", libPathOf (configDirOf home),
         "/dmdf", metadataPathOf (configDirOf home)]) ∧
    (∀ home d, args.description = some d →
      templateOf args home =
        ["sign", "/v", "/fd", args.fd, "/tr", args.tr, "/td", args.td,
         "/dlib", libPathOf (configDirOf home),
         "/dmdf", metadataPathOf (configDirOf home), "/d", d]) := by
  refine ⟨fun argv h => ?_, fun home hd => ?_, fun home d hd => ?_⟩
  · obtain ⟨home, hh, f, hf, he⟩ := run_signCall_mem args env fs argv h
    exact ⟨home, hh, f, hf, he⟩
  · simp [templateOf, buildCmdArgs, hd]
  · simp [templateOf, buildCmdArgs, hd]

theorem sign_template_spec_witness :
    sampleArgs.description = none ∧
    templateOf sampleArgs "/home/u" =
      ["sign", "/v", "/fd", "SHA256", "/tr", "http://ts", "/td", "SHA256",
       "/dlib", libPathOf (configDirOf "/home/u"),
       "/dmdf", metadataPathOf (configDirOf "/home/u")] :=
  ⟨rfl, (sign_template_spec sampleArgs sampleEnv emptyFS).2.1 "/home/u" rfl⟩

/-- C7: with all earlier stages succeeding and signtool succeeding on
every file, the files are processed in input order; with the skip policy
on, exactly the files accepted by the classifier are invoked (the rest
are skipped with no invocation and no error), and with the policy off,
every file is invoked. -/
theorem per_file_policy (args : Args) (env : Env) (fs : FS) (home : String)
    (h1 : env.azureCliExists = true) (h2 : env.signToolExists = true)
    (h3 : env.homeDir = some home)
    (h4 : fs.configDirExists = true ∨ env.createDirOk = true)
    (h5 : fs.libMarkerPresent = true ∨
      (env.urlParseOk = true ∧ env.downloadOk = true ∧ env.extractOk = true))
    (h6 : env.writeOk = true) (h7 : env.loginOk = true)
    (hsign : ∀ f ∈ args.file, env.signOk f = true) :
    signArgvs (run args env fs).events =
      (args.file.filter (shouldSign args.ignore_unsupported)).map
        (fun f => templateOf args home ++ [f]) ∧
    (run args env fs).result = .ok ∧
    (args.ignore_unsupported = true →
      args.file.filter (shouldSign true) = args.file.filter is_supported) ∧
    (args.ignore_unsupported = false →
      args.file.filter (shouldSign false) = args.file) := by
  have hall : ∀ f ∈ args.file.filter (shouldSign args.ignore_unsupported),
      env.signOk f = true :=
    fun f hf => hsign f (List.mem_of_mem_filter hf)
  rw [run_setup args env fs home h1 h2 h3 h4 h5 h6 h7]
  rw [signLoop_eq_signPlain, signPlain_all_ok _ _ _ _ _ hall]
  refine ⟨?_, rfl, fun _ => ?_, fun _ => ?_⟩
  · have hm := filterMap_signCall_map (templateOf args home)
      (args.file.filter (shouldSign args.ignore_unsupported))
    by_cases hcd : fs.configDirExists <;> by_cases hlib : fs.libMarkerPresent <;>
      simp [hcd, hlib, signArgvs, List.filterMap_append, hm]
  · exact List.filter_congr fun f _ => by simp [shouldSign]
  · simp [shouldSign]

theorem per_file_policy_witness :
    (sampleArgs.ignore_unsupported = true ∧
     (∀ f ∈ sampleArgs.file, sampleEnv.signOk f = true)) ∧
    (signArgvs (run sampleArgs sampleEnv emptyFS).events =
      (sampleArgs.file.filter (shouldSign sampleArgs.ignore_unsupported)).map
        (fun f => templateOf sampleArgs "/home/u" ++ [f]) ∧
     (run sampleArgs sampleEnv emptyFS).result = .ok ∧
     (sampleArgs.ignore_unsupported = true →
       sampleArgs.file.filter (shouldSign true) = sampleArgs.file.filter is_supported) ∧
     (sampleArgs.ignore_unsupported = false →
       sampleArgs.file.filter (shouldSign false) = sampleArgs.file)) :=
  ⟨⟨by decide, by decide⟩,
   per_file_policy sampleArgs sampleEnv emptyFS "/home/u"
     (by decide) (by decide) (by decide) (Or.inr (by decide))
     (Or.inr ⟨by decide, by decide, by decide⟩) (by decide) (by decide) (by decide)⟩

/-- C8: if signtool fails on the k-th invoked file, exactly k
invocations occur (the failing one included), no later file is
attempted, the run fails with an error naming the offending file, and
the invocations that already happened stay in the trace (no rollback). -/
theorem batch_abort (args : Args) (env : Env) (fs : FS) (home : String)
    (h1 : env.azureCliExists = true) (h2 : env.signToolExists = true)
    (h3 : env.homeDir = some home)
    (h4 : fs.configDirExists = true ∨ env.createDirOk = true)
    (h5 : fs.libMarkerPresent = true ∨
      (env.urlParseOk = true ∧ env.downloadOk = true ∧ env.extractOk = true))
    (h6 : env.writeOk = true) (h7 : env.loginOk = true)
    (pre post : List String) (bad : String)
    (hsplit : args.file.filter (shouldSign args.ignore_unsupported) = pre ++ bad :: post)
    (hpre : ∀ f ∈ pre, env.signOk f = true) (hbad : env.signOk bad = false) :
    signArgvs (run args env fs).events =
      (pre ++ [bad]).map (fun f => templateOf args home ++ [f]) ∧
    (signArgvs (run args env fs).events).length = pre.length + 1 ∧
    (run args env fs).result =
      .err (signErrMsg args.sign_tool_path bad (env.signErr bad)) ∧
    (∀ f ∈ pre,
      Event.signCall (templateOf args home ++ [f]) ∈ (run args env fs).events) ∧
    (∃ x y, signErrMsg args.sign_tool_path bad (env.signErr bad) = x ++ (bad ++ y)) := by
  have hname : ∃ x y,
      signErrMsg args.sign_tool_path bad (env.signErr bad) = x ++ (bad ++ y) := by
    refine ⟨"signtool '" ++ args.sign_tool_path ++ "' could not sign the file '" ++ "\"",
      "\"" ++ ("', error: " ++ env.signErr bad), ?_⟩
    apply String.ext
    simp [signErrMsg, quoteDbg, String.data_append, List.append_assoc]
  rw [run_setup args env fs home h1 h2 h3 h4 h5 h6 h7]
  rw [signLoop_eq_signPlain, hsplit, signPlain_fail _ _ _ _ pre post bad hpre hbad]
  have hargv : signArgvs
      ((if fs.configDirExists = true then [] else [Event.createConfigDir]) ++
       (if fs.libMarkerPresent = true then [] else [.downloadCall, .extractCall]) ++
       .metadataWrite (metadataOf args).toJson :: .loginCall ::
         ((pre.map fun f => Event.signCall (templateOf args home ++ [f])) ++
          [.signCall (templateOf args home ++ [bad])])) =
      (pre ++ [bad]).map (fun f => templateOf args home ++ [f]) := by
    have hm := filterMap_signCall_map (templateOf args home) pre
    by_cases hcd : fs.configDirExists <;> by_cases hlib : fs.libMarkerPresent <;>
      simp [hcd, hlib, signArgvs, List.filterMap_append, hm]
  refine ⟨hargv, ?_, rfl, fun f hf => ?_, hname⟩
  · rw [hargv]
    simp
  · simp only [RunOut.events]
    exact List.mem_append_right _ (List.mem_cons_of_mem _ (List.mem_cons_of_mem _
      (List.mem_append_left _ (List.mem_map_of_mem _ hf))))

theorem batch_abort_witness :
    (argsThree.file.filter (shouldSign argsThree.ignore_unsupported) =
       ["a.exe"] ++ "b.exe" :: ["c.exe"] ∧
     (∀ f ∈ ["a.exe"], envFailB.signOk f = true) ∧
     envFailB.signOk "b.exe" = false) ∧
    (signArgvs (run argsThree envFailB emptyFS).events =
      (["a.exe"] ++ ["b.exe"]).map (fun f => templateOf argsThree "/home/u" ++ [f]) ∧
     (signArgvs (run argsThree envFailB emptyFS).events).length = 2 ∧
     (run argsThree envFailB emptyFS).result =
       .err (signErrMsg argsThree.sign_tool_path "b.exe" (envFailB.signErr "b.exe")) ∧
     (∀ f ∈ ["a.exe"],
       Event.signCall (templateOf argsThree "/home/u" ++ [f]) ∈
         (run argsThree envFailB emptyFS).events) ∧
     (∃ x y, signErrMsg argsThree.sign_tool_path "b.exe" (envFailB.signErr "b.exe") =
       x ++ ("b.exe" ++ y))) :=
  ⟨⟨by decide, by decide, by decide⟩,
   batch_abort argsThree envFailB emptyFS "/home/u"
     (by decide) (by decide) (by decide) (Or.inr (by decide))
     (Or.inr ⟨by decide, by decide, by decide⟩) (by decide) (by decide)
     ["a.exe"] ["c.exe"] "b.exe" (by decide) (by decide) (by decide)⟩

/-- C9 counterexample: with both tool paths present but no resolvable
home directory, the run panics (the source calls `.expect` on
`BaseDirs::new()`); the process terminates with Rust's panic exit status
101, not with the exit status 1 the claim asserts for every fatal
error. -/
theorem home_panic_counterexample :
    (run sampleArgs envNoHome emptyFS).result =
      .panicked "could not find home directory" ∧
    (run sampleArgs envNoHome emptyFS).result ≠ .ok ∧
    mainExitCode sampleArgs envNoHome emptyFS = 101 ∧
    mainExitCode sampleArgs envNoHome emptyFS ≠ 1 := by
  decide

/-- C9 (amended): the process exits 0 iff every stage succeeds, and
exits 1 exactly when `run` surfaces a fatal error; an unresolvable home
directory, however, is handled by a panic, terminating the process with
the panic exit status 101 — outside the exit-1 contract. -/
theorem exit_status_contract (args : Args) (env : Env) (fs : FS) :
    (mainExitCode args env fs = 0 ↔ runSucceeds args env fs = true) ∧
    (mainExitCode args env fs = 0 ↔ (run args env fs).result = .ok) ∧
    (∀ m, (run args env fs).result = .err m → mainExitCode args env fs = 1) ∧
    (mainExitCode args env fs = 1 ↔ ∃ m, (run args env fs).result = .err m) ∧
    (env.azureCliExists = true → env.signToolExists = true → env.homeDir = none →
      mainExitCode args env fs = 101) := by
  have hiff := run_ok_iff args env fs
  have h0 : mainExitCode args env fs = 0 ↔ (run args env fs).result = .ok := by
    unfold mainExitCode
    cases (run args env fs).result <;> simp
  have h1 : mainExitCode args env fs = 1 ↔ ∃ m, (run args env fs).result = .err m := by
    unfold mainExitCode
    cases (run args env fs).result <;> simp
  refine ⟨h0.trans hiff, h0, fun m hm => h1.mpr ⟨m, hm⟩, h1, fun hc hs hh => ?_⟩
  unfold mainExitCode
  rw [run_result]
  simp [hc, hs, hh]

theorem exit_status_contract_witness :
    (envNoHome.azureCliExists = true ∧ envNoHome.signToolExists = true ∧
     envNoHome.homeDir = none) ∧
    mainExitCode sampleArgs envNoHome emptyFS = 101 :=
  ⟨⟨by decide, by decide, by decide⟩,
   (exit_status_contract sampleArgs envNoHome emptyFS).2.2.2.2
     (by decide) (by decide) (by decide)⟩

/-- C10: with the skip policy on and every target file rejected by the
classifier, the run still provisions the workspace, writes the metadata,
performs the login, performs zero sign invocations, and exits 0. -/
theorem all_skipped_run (args : Args) (env : Env) (fs : FS) (home : String)
    (h1 : env.azureCliExists = true) (h2 : env.signToolExists = true)
    (h3 : env.homeDir = some home)
    (h4 : fs.configDirExists = true ∨ env.createDirOk = true)
    (h5 : fs.libMarkerPresent = true ∨
      (env.urlParseOk = true ∧ env.downloadOk = true ∧ env.extractOk = true))
    (h6 : env.writeOk = true) (h7 : env.loginOk = true)
    (hig : args.ignore_unsupported = true)
    (hall : ∀ f ∈ args.file, is_supported f = false) :
    (run args env fs).result = .ok ∧
    mainExitCode args env fs = 0 ∧
    signArgvs (run args env fs).events = [] ∧
    Event.metadataWrite (metadataOf args).toJson ∈ (run args env fs).events ∧
    Event.loginCall ∈ (run args env fs).events ∧
    (run args env fs).fs.configDirExists = true ∧
    (run args env fs).fs.libMarkerPresent = true := by
  have hfil : args.file.filter (shouldSign args.ignore_unsupported) = [] := by
    rw [hig]
    refine List.filter_eq_nil_iff.mpr fun f hf => ?_
    simp [shouldSign, hall f hf]
  unfold mainExitCode
  rw [run_setup args env fs home h1 h2 h3 h4 h5 h6 h7]
  rw [signLoop_eq_signPlain, hfil]
  refine ⟨rfl, rfl, ?_, by simp [signPlain], by simp [signPlain], rfl, rfl⟩
  by_cases hcd : fs.configDirExists <;> by_cases hlib : fs.libMarkerPresent <;>
    simp [hcd, hlib, signArgvs, signPlain, List.filterMap_append]

theorem all_skipped_run_witness :
    (argsAllSkipped.ignore_unsupported = true ∧
     (∀ f ∈ argsAllSkipped.file, is_supported f = false)) ∧
    ((run argsAllSkipped sampleEnv emptyFS).result = .ok ∧
     mainExitCode argsAllSkipped sampleEnv emptyFS = 0 ∧
     signArgvs (run argsAllSkipped sampleEnv emptyFS).events = [] ∧
     Event.metadataWrite (metadataOf argsAllSkipped).toJson ∈
       (run argsAllSkipped sampleEnv emptyFS).events ∧
     Event.loginCall ∈ (run argsAllSkipped sampleEnv emptyFS).events ∧
     (run argsAllSkipped sampleEnv emptyFS).fs.configDirExists = true ∧
     (run argsAllSkipped sampleEnv emptyFS).fs.libMarkerPresent = true) :=
  ⟨⟨by decide, by decide⟩,
   all_skipped_run argsAllSkipped sampleEnv emptyFS "/home/u"
     (by decide) (by decide) (by decide) (Or.inr (by decide))
     (Or.inr ⟨by decide, by decide, by decide⟩) (by decide) (by decide)
     (by decide) (by decide)⟩

end TrustedSigningCli
